import Mathlib

set_option maxRecDepth 20000

-- Rational arithmetic in core is elaborator-irreducible, which blocks the
-- decide tactic's evaluation of closed goals; restoring the default
-- transparency inside this file lets decide evaluate them.  The kernel
-- ignores transparency attributes, so proofs are unaffected.
attribute [local semireducible] Rat.add Rat.sub Rat.mul Rat.inv Rat.ofScientific

/-
Shallow embedding of the MeetMogger insight/sentiment extraction pipeline:
  src/meetmogger/utils/validators.py        (validate_transcript)
  src/meetmogger/core/transcript_processor.py (TranscriptProcessor)
  src/meetmogger/core/sentiment_analyzer.py   (SentimentAnalyzer)
  src/meetmogger/core/insight_extractor.py    (InsightExtractor)

Python strings are embedded as Lean String (a list of characters); all the
repository's lexicons, regex literals and test inputs are ASCII.  Python
floats are embedded as exact rationals.  The regular expressions in the
source are each embedded as a dedicated character-list transformation that
implements the regex's left-to-right scan-and-replace semantics; every such
definition carries a comment naming the regex it implements.  External
collaborators (VADER, TextBlob) are modelled as function parameters.
Several scanners recurse on a Nat fuel initialised to the input length;
every step consumes at least one character, so the zero-fuel branch is
never reached and the fuel does not affect semantics.
-/

/-! ## Python string primitives -/

/-- Python whitespace (str.strip and the regex class for s): space, tab,
newline, carriage return, form feed, vertical tab. -/
def pyIsSpace (c : Char) : Bool :=
  c = ' ' || c = '\t' || c = '\n' || c = '\r' || c = '\x0c' || c = '\x0b'

/-- Python str.strip on a character list. -/
def pyStripList (l : List Char) : List Char :=
  ((l.dropWhile pyIsSpace).reverse.dropWhile pyIsSpace).reverse

/-- Python str.strip. -/
def pyStrip (s : String) : String := ⟨pyStripList s.toList⟩

/-- Python str.lower (ASCII). -/
def pyLower (s : String) : String := ⟨s.toList.map Char.toLower⟩

/-- Helper for pySplitWs: cur is the reversed current word. -/
def pySplitWsAux (cur : List Char) : List Char → List (List Char)
  | [] => if cur.isEmpty then [] else [cur.reverse]
  | c :: cs =>
    if pyIsSpace c then
      if cur.isEmpty then pySplitWsAux [] cs else cur.reverse :: pySplitWsAux [] cs
    else pySplitWsAux (c :: cur) cs

/-- Python str.split() with no argument: split on whitespace runs, dropping
empty fields. -/
def pySplitWs (s : String) : List String :=
  (pySplitWsAux [] s.toList).map fun l => (⟨l⟩ : String)

/-- Python s.split("\n") on a character list: fields between newlines,
keeping empty fields (so the result is always nonempty). -/
def pySplitLinesList : List Char → List (List Char)
  | [] => [[]]
  | c :: cs =>
    if c = '\n' then [] :: pySplitLinesList cs
    else
      match pySplitLinesList cs with
      | [] => [[c]]
      | t :: ts => (c :: t) :: ts

/-- Python substring containment (needle in haystack) on character lists. -/
def listContains (needle haystack : List Char) : Bool :=
  (List.range (haystack.length + 1)).any fun i => needle.isPrefixOf (haystack.drop i)

/-- Python substring containment: needle in haystack. -/
def pyContains (needle haystack : String) : Bool :=
  listContains needle.toList haystack.toList

/-- Python regex word character (the class w) restricted to ASCII, which is
all the repository's patterns and lexicons use. -/
def isWordChar (c : Char) : Bool := c.isAlpha || c.isDigit || c = '_'

/-- Uppercase ASCII letter: the regex class [A-Z]. -/
def isUpperAZ (c : Char) : Bool := 'A' ≤ c && c ≤ 'Z'

/-- Sentence-terminating punctuation: the regex class [.!?]. -/
def isSentPunct (c : Char) : Bool := c = '.' || c = '!' || c = '?'

/-- Fold step for splitSentRuns.  Processing right to left; the Bool records
whether the character to the right was sentence punctuation (so that a run
of punctuation produces a single field boundary). -/
def splitSentStep (c : Char) (st : List (List Char) × Bool) :
    List (List Char) × Bool :=
  if isSentPunct c then
    if st.2 then (st.1, true) else ([] :: st.1, true)
  else
    match st.1 with
    | [] => ([[c]], false)
    | f :: fs => ((c :: f) :: fs, false)

/-- Python re.split on the regex [.!?]+ : fields between runs of sentence
punctuation, keeping empty fields at the ends. -/
def splitSentRuns (l : List Char) : List (List Char) :=
  (l.foldr splitSentStep ([[]], false)).1

/-- Python list slice xs[a:b]. -/
def listSlice {α : Type} (xs : List α) (a b : Nat) : List α :=
  (xs.drop a).take (b - a)

/-- Python string slice s[a:b]. -/
def strSlice (s : String) (a b : Nat) : String := ⟨listSlice s.toList a b⟩

/-- Python string slice s[a:]. -/
def strDropFrom (s : String) (a : Nat) : String := ⟨s.toList.drop a⟩

/-- Python " ".join. -/
def joinWithSpace (xs : List String) : String := String.intercalate " " xs

/-- A string holding one apostrophe (used to build literals of the source
that contain one). -/
def apos : String := String.singleton '\''

/-- Python ascending string sort (sorted): lexicographic by code point.
The relation is the reflexive closure of the String order. -/
def pySortedStrings (l : List String) : List String :=
  List.insertionSort (fun a b => a = b ∨ a < b) l

/-! ## utils/validators.py -/

/-- A Python runtime value passed to validate_transcript: None, a string, a
dict holding some value under a "text" key, a dict without a "text" key, or
a value of any other type, recorded by its type name. -/
inductive PyVal where
  | vNone
  | vStr (s : String)
  | vDictWithText (v : PyVal)
  | vDictNoText
  | vOther (typeName : String)
deriving DecidableEq

/-- An uncaught Python exception escaping validate_transcript: attribute
lookup of .strip on a non-string value. -/
inductive PyExc where
  | attributeError
deriving DecidableEq

/-- Outcome of validate_transcript, restructuring the Python result dict
(is_valid / transcript / error / warnings) as a sum. -/
inductive VResult where
  | invalid (error : String) (warnings : List String)
  | valid (transcript : String) (warnings : List String)
deriving DecidableEq

/-- Body of validate_transcript from the line cleaned = transcript.strip()
on, for a value already known to be a string. -/
def validateStr (s : String) : VResult :=
  let cleaned := pyStrip s
  if cleaned = "" then .invalid "Transcript is empty" []
  else
    let w1 : List String :=
      if cleaned.length < 10 then
        ["Transcript is very short (less than 10 characters)"] else []
    let w2 := w1 ++ (if 50000 < cleaned.length then
        ["Transcript is very long (over 50,000 characters)"] else [])
    if !(cleaned.toList.any fun c => c.isAlpha) then
      .invalid "Transcript contains no alphabetic characters" w2
    else
      let w3 := w2 ++ (if (splitSentRuns cleaned.toList).length < 2 then
          ["Transcript appears to have no sentence breaks"] else [])
      .valid cleaned w3

/-- validators.validate_transcript.  A dict with a "text" key has that value
substituted for the transcript without a second isinstance check, so a
non-string value there reaches .strip() and raises AttributeError (vOther
models values such as ints and lists, which have no strip method). -/
def validate_transcript : PyVal → Except PyExc VResult
  | .vNone => .ok (.invalid "Transcript cannot be None" [])
  | .vStr s => .ok (validateStr s)
  | .vDictWithText v =>
    match v with
    | .vStr s => .ok (validateStr s)
    | _ => .error .attributeError
  | .vDictNoText => .ok (.invalid "Transcript must be a string, received dict" [])
  | .vOther t => .ok (.invalid ("Transcript must be a string, received " ++ t) [])

/-! ## core/transcript_processor.py -/

/-- Index of the nearest closing delimiter with no newline before it, as
matched by the non-greedy dot of the noise regexes (the dot does not match
a newline). -/
def findCloseIdx (cl : Char) : List Char → Option Nat
  | [] => none
  | c :: cs =>
    if c = '\n' then none
    else if c = cl then some 0
    else (findCloseIdx cl cs).map (· + 1)

/-- Python re.sub of a bracketed-noise regex with empty replacement.  For
op = open bracket and cl = close bracket this implements the patterns
matching a bracket pair with a minimal, newline-free inside (the source
uses the three pairs of square brackets, parentheses, and angle brackets).
Fuel starts at the input length; every step consumes a character. -/
def removeDelimitedF (op cl : Char) : Nat → List Char → List Char
  | 0, _ => []
  | _ + 1, [] => []
  | fuel + 1, c :: cs =>
    if c = op then
      match findCloseIdx cl cs with
      | some k => removeDelimitedF op cl fuel (cs.drop (k + 1))
      | none => c :: removeDelimitedF op cl fuel cs
    else c :: removeDelimitedF op cl fuel cs

def removeDelimited (op cl : Char) (l : List Char) : List Char :=
  removeDelimitedF op cl l.length l

/-- Python re.sub removing maximal runs of a repeated character of length at
least minLen with empty replacement: the noise patterns for runs of dots
(minimum three), dashes (minimum two) and underscores (minimum two). -/
def removeCharRunsF (ch : Char) (minLen : Nat) : Nat → List Char → List Char
  | 0, _ => []
  | _ + 1, [] => []
  | fuel + 1, c :: cs =>
    if c = ch then
      let run := cs.takeWhile (· = ch)
      let rest := cs.dropWhile (· = ch)
      if minLen ≤ run.length + 1 then removeCharRunsF ch minLen fuel rest
      else (c :: run) ++ removeCharRunsF ch minLen fuel rest
    else c :: removeCharRunsF ch minLen fuel cs

def removeCharRuns (ch : Char) (minLen : Nat) (l : List Char) : List Char :=
  removeCharRunsF ch minLen l.length l

/-- Helper for collapseWs: the Bool records whether the previous character
was whitespace (in which case this one extends an already-replaced run). -/
def collapseWsAux : Bool → List Char → List Char
  | _, [] => []
  | prevWs, c :: cs =>
    if pyIsSpace c then
      if prevWs then collapseWsAux true cs else ' ' :: collapseWsAux true cs
    else c :: collapseWsAux false cs

/-- Python re.sub replacing every whitespace run by one space. -/
def collapseWs (l : List Char) : List Char := collapseWsAux false l

/-- Python re.sub of the extra-punctuation regex: a sentence punctuation
mark, optional whitespace, then one or more further consecutive sentence
punctuation marks, replaced by the first mark alone.  Scanning resumes after
the match.  Inner whitespace characters are not punctuation, so the greedy
quantifiers need no backtracking beyond what is written here. -/
def collapseSentPunctF : Nat → List Char → List Char
  | 0, _ => []
  | _ + 1, [] => []
  | fuel + 1, c :: cs =>
    if isSentPunct c then
      match cs.dropWhile pyIsSpace with
      | d :: ds =>
        if isSentPunct d then c :: collapseSentPunctF fuel (ds.dropWhile isSentPunct)
        else c :: collapseSentPunctF fuel cs
      | [] => c :: collapseSentPunctF fuel cs
    else c :: collapseSentPunctF fuel cs

def collapseSentPunct (l : List Char) : List Char :=
  collapseSentPunctF l.length l

/-- The punctuation class of the spacing fixes: period, exclamation mark,
question mark, comma, colon, semicolon. -/
def isPunct6 (c : Char) : Bool :=
  c = '.' || c = '!' || c = '?' || c = ',' || c = ':' || c = ';'

/-- Python re.sub deleting a whitespace run that directly precedes one of
the six punctuation marks (the run plus the mark are replaced by the mark;
scanning resumes after the mark).  When the run is not followed by such a
mark no suffix of the run is either, so the whole run is emitted. -/
def fixSpaceBeforePunctF : Nat → List Char → List Char
  | 0, _ => []
  | _ + 1, [] => []
  | fuel + 1, c :: cs =>
    if pyIsSpace c then
      match cs.dropWhile pyIsSpace with
      | d :: ds =>
        if isPunct6 d then d :: fixSpaceBeforePunctF fuel ds
        else (c :: cs.takeWhile pyIsSpace) ++ fixSpaceBeforePunctF fuel (cs.dropWhile pyIsSpace)
      | [] => c :: cs
    else c :: fixSpaceBeforePunctF fuel cs

def fixSpaceBeforePunct (l : List Char) : List Char :=
  fixSpaceBeforePunctF l.length l

/-- Python re.sub inserting a space between one of the six punctuation marks
and a directly following capital letter; scanning resumes after the
letter. -/
def spaceAfterPunct : List Char → List Char
  | [] => []
  | [c] => [c]
  | c :: d :: rest =>
    if isPunct6 c && isUpperAZ d then c :: ' ' :: d :: spaceAfterPunct rest
    else c :: spaceAfterPunct (d :: rest)

/-- Case-insensitive literal match at the head of the text: returns the
matched original-case characters and the remainder.  The literal is given
in lowercase. -/
def ciTakeLit : List Char → List Char → Option (List Char × List Char)
  | [], l => some ([], l)
  | _ :: _, [] => none
  | a :: as, c :: cs =>
    if c.toLower = a.toLower then
      (ciTakeLit as cs).map fun pr => (c :: pr.1, pr.2)
    else none

/-- Word boundary on the left of a match: start of text or a preceding
non-word character. -/
def boundaryBefore : Option Char → Bool
  | none => true
  | some p => !isWordChar p

/-- Word boundary on the right of a match: end of text or a following
non-word character. -/
def boundaryAfterAt : List Char → Bool
  | [] => true
  | d :: _ => !isWordChar d

/-- The last character of a word, used as the previous-character context
after a replacement (word-character status is case-insensitive, so using
the lowercase literal is exact). -/
def lastOpt (w : List Char) : Option Char := w.reverse.head?

/-- Python re.sub with the IGNORECASE word regex matching the literal w
between two word boundaries, replaced everywhere by repl: the filler fixes
for uh, um and er.  The previous original character is carried for the left
boundary test. -/
def subWordCIF (w repl : List Char) : Nat → Option Char → List Char → List Char
  | 0, _, _ => []
  | _ + 1, _, [] => []
  | fuel + 1, prev, c :: cs =>
    if boundaryBefore prev && !w.isEmpty && (ciTakeLit w (c :: cs)).isSome
        && boundaryAfterAt ((c :: cs).drop w.length) then
      repl ++ subWordCIF w repl fuel (lastOpt w) ((c :: cs).drop w.length)
    else c :: subWordCIF w repl fuel (some c) cs

def subWordCI (w repl : String) (l : List Char) : List Char :=
  subWordCIF w.toList repl.toList l.length none l

/-- Match of the doubled-word regex body at the head of the text: the
literal w, at least one whitespace character (greedy; a shorter run cannot
be followed by the literal, whose first character is a letter), then the
literal again.  Returns the remainder. -/
def matchDoubled (w : List Char) (l : List Char) : Option (List Char) :=
  match ciTakeLit w l with
  | none => none
  | some (_, r1) =>
    if (r1.takeWhile pyIsSpace).isEmpty then none
    else
      match ciTakeLit w (r1.dropWhile pyIsSpace) with
      | none => none
      | some (_, r2) => some r2

/-- Python re.sub with the IGNORECASE regex matching a doubled word (w,
whitespace, w) between word boundaries, replaced by the single lowercase
literal: the fixes for doubled well, yeah, okay. -/
def subDoubledCIF (w : List Char) : Nat → Option Char → List Char → List Char
  | 0, _, _ => []
  | _ + 1, _, [] => []
  | fuel + 1, prev, c :: cs =>
    match (if boundaryBefore prev then matchDoubled w (c :: cs) else none) with
    | some rest =>
      if boundaryAfterAt rest then w ++ subDoubledCIF w fuel (lastOpt w) rest
      else c :: subDoubledCIF w fuel (some c) cs
    | none => c :: subDoubledCIF w fuel (some c) cs

def subDoubledCI (w : String) (l : List Char) : List Char :=
  subDoubledCIF w.toList l.length none l

/-- TranscriptProcessor._fix_common_issues: fix spacing around punctuation,
then apply the filler-word fixes in the insertion order of the source
dict. -/
def fixCommonIssues (l : List Char) : List Char :=
  let t1 := fixSpaceBeforePunct l
  let t2 := spaceAfterPunct t1
  let t3 := subWordCI "uh" "" t2
  let t4 := subWordCI "um" "" t3
  let t5 := subWordCI "er" "" t4
  let t6 := subDoubledCI "well" t5
  let t7 := subDoubledCI "yeah" t6
  subDoubledCI "okay" t7

/-- TranscriptProcessor._clean_text: the noise patterns in order (three
bracket pairs, dot runs of length at least three, dash and underscore runs
of length at least two), whitespace normalisation, extra-punctuation
collapse, the common fixes, and a final strip. -/
def cleanTextList (l : List Char) : List Char :=
  let n1 := removeDelimited '[' ']' l
  let n2 := removeDelimited '(' ')' n1
  let n3 := removeDelimited '<' '>' n2
  let n4 := removeCharRuns '.' 3 n3
  let n5 := removeCharRuns '-' 2 n4
  let n6 := removeCharRuns '_' 2 n5
  let n7 := collapseWs n6
  let n8 := collapseSentPunct n7
  let n9 := fixCommonIssues n8
  pyStripList n9

def cleanText (s : String) : String := ⟨cleanTextList s.toList⟩

/-- Loop body of TranscriptProcessor._extract_sentences: strip each field
and keep it when its length exceeds ten characters. -/
def extractSentencesLoop : List (List Char) → List String
  | [] => []
  | s :: rest =>
    let t := pyStripList s
    if 10 < t.length then (⟨t⟩ : String) :: extractSentencesLoop rest
    else extractSentencesLoop rest

/-- TranscriptProcessor._extract_sentences. -/
def extractSentences (text : String) : List String :=
  extractSentencesLoop (splitSentRuns text.toList)

/-- Anchored match of one speaker-label regex: an uppercase letter, a run
over the class cls (required nonempty when needRun, as in the patterns with
a one-or-more quantifier), then a colon.  The colon is in none of the
classes, so only the maximal run can precede it and the greedy quantifier
needs no backtracking.  Returns the capture group. -/
def matchLabel (cls : Char → Bool) (needRun : Bool) (line : List Char) :
    Option (List Char) :=
  match line with
  | [] => none
  | c :: cs =>
    if isUpperAZ c then
      let run := cs.takeWhile cls
      if needRun && run.isEmpty then none
      else
        match cs.dropWhile cls with
        | ':' :: _ => some (c :: run)
        | _ => none
    else none

/-- The four speaker patterns of TranscriptProcessor, tried in order with
the first match winning: Title Case words, ALL CAPS words, one capitalized
word, one ALL CAPS word, each followed by a colon. -/
def speakerPatternsMatch (line : List Char) : Option (List Char) :=
  match matchLabel (fun c => c.isAlpha || pyIsSpace c) true line with
  | some g => some g
  | none =>
    match matchLabel (fun c => isUpperAZ c || pyIsSpace c) true line with
    | some g => some g
    | none =>
      match matchLabel (fun c => 'a' ≤ c && c ≤ 'z') true line with
      | some g => some g
      | none => matchLabel isUpperAZ false line

/-- TranscriptProcessor._extract_speakers: per line of the text, the first
matching pattern's stripped capture is collected when longer than one
character; the set of captures is returned sorted.  The Python set is
modelled as first-occurrence deduplication, which sorting makes
order-canonical. -/
def extractSpeakers (text : String) : List String :=
  let collected := (pySplitLinesList text.toList).filterMap fun line =>
    match speakerPatternsMatch line with
    | some g =>
      let sp := pyStripList g
      if 1 < sp.length then some (⟨sp⟩ : String) else none
    | none => none
  pySortedStrings collected.dedup

/-- Metadata dict of TranscriptProcessor._create_metadata. -/
structure TranscriptMetadata where
  original_length : Nat
  cleaned_length : Nat
  sentence_count : Nat
  speaker_count : Nat
  average_sentence_length : ℚ
  word_count : Nat
  speakers : List String
  processing_timestamp : String
deriving DecidableEq

/-- Metadata of a ProcessedTranscript: the error dict of the failure path
or the full metadata dict. -/
inductive TMeta where
  | err (e : String)
  | meta (m : TranscriptMetadata)
deriving DecidableEq

/-- transcript_processor.ProcessedTranscript. -/
structure ProcessedTranscript where
  original_text : String
  cleaned_text : String
  sentences : List String
  speakers : List String
  metadata : TMeta
deriving DecidableEq

def createMetadata (original cleaned : String) (sentences speakers : List String) :
    TranscriptMetadata :=
  { original_length := original.length
    cleaned_length := cleaned.length
    sentence_count := sentences.length
    speaker_count := speakers.length
    average_sentence_length :=
      if sentences.isEmpty then 0
      else ((sentences.map fun s => ((pySplitWs s).length : ℚ)).sum) / sentences.length
    word_count := (pySplitWs cleaned).length
    speakers := speakers
    processing_timestamp := "2024-01-01T00:00:00Z" }

/-- TranscriptProcessor.process for a string argument (the declared
parameter type).  On invalid input the raw text is kept as original_text
and an error-tagged empty result is returned; otherwise the stripped
transcript is cleaned and the sentences and speakers are extracted from
the cleaned text. -/
def process (text : String) : ProcessedTranscript :=
  match validateStr text with
  | .invalid e _ => ⟨text, "", [], [], .err e⟩
  | .valid orig _ =>
    let cleaned := cleanText orig
    let sentences := extractSentences cleaned
    let speakers := extractSpeakers cleaned
    ⟨orig, cleaned, sentences, speakers,
      .meta (createMetadata orig cleaned sentences speakers)⟩

/-! ## core/sentiment_analyzer.py -/

/-- VADER polarity_scores dict. -/
structure VaderScores where
  neg : ℚ
  neu : ℚ
  pos : ℚ
  compound : ℚ
deriving DecidableEq

/-- TextBlob sentence sentiment. -/
structure TBSent where
  polarity : ℚ
  subjectivity : ℚ
deriving DecidableEq

/-- External collaborators used by SentimentAnalyzer: the VADER analyzer,
TextBlob sentence sentiment and TextBlob sentence tokenization, modelled as
function parameters (both libraries are deterministic lexicon matchers). -/
structure Externals where
  vaderScores : String → VaderScores
  tbSentiment : String → TBSent
  tbSentences : String → List String

/-- Constructor state of SentimentAnalyzer: the two feature flags and the
three word sets assigned in the constructor and never mutated.  The Python
sets are modelled as the lists of their distinct member literals; every use
below is order-independent (membership tests, or match lists canonicalised
by a position sort whose keys are distinct). -/
structure AnalyzerConfig where
  use_vader : Bool
  use_textblob : Bool
  positive_words : List String
  negative_words : List String
  intensity_words : List String
deriving DecidableEq

/-- The positive word set literal of the constructor. -/
def positiveWordsList : List String :=
  ["good", "great", "excellent", "happy", "love", "wonderful", "amazing",
   "positive", "pleased", "satisfied", "fantastic", "nice", "awesome",
   "glad", "enjoy", "perfect", "outstanding", "brilliant", "superb",
   "delighted", "thrilled", "excited", "optimistic", "confident"]

/-- The negative word set literal of the constructor (the source literal
repeats disappointed, frustrated, angry, upset and terrible; the set keeps
one copy of each). -/
def negativeWordsList : List String :=
  ["bad", "terrible", "awful", "sad", "hate", "horrible", "negative",
   "angry", "upset", "disappointed", "poor", "worse", "worst",
   "unhappy", "annoyed", "frustrated", "concerned", "worried"]

/-- The intensity word set literal of the constructor. -/
def intensityWordsList : List String :=
  ["very", "extremely", "incredibly", "absolutely", "completely",
   "totally", "really", "quite", "rather", "somewhat", "slightly"]

/-- SentimentAnalyzer() with both sub-analyzers enabled (the constructor
defaults). -/
def defaultAnalyzer : AnalyzerConfig :=
  ⟨true, true, positiveWordsList, negativeWordsList, intensityWordsList⟩

/-- One word highlight dict (the Python "end" key is stop here). -/
structure Highlight where
  word : String
  polarity : String
  start : Nat
  stop : Nat
  intensity : String
deriving DecidableEq

/-- Word-boundary occurrences of the lowercase word w in the lowered text:
positions i where w occurs with a non-word character (or a text edge) on
both sides.  Distinct matches of a word made of word characters cannot
overlap, so this filter equals the non-overlapping scan of re.finditer. -/
def findWordMatches (w : List Char) (chars : List Char) : List (Nat × Nat) :=
  (List.range chars.length).filterMap fun i =>
    if (i = 0 ∨ !isWordChar (chars.getD (i - 1) ' '))
        ∧ w.isPrefixOf (chars.drop i)
        ∧ (i + w.length = chars.length ∨ !isWordChar (chars.getD (i + w.length) ' '))
    then some (i, i + w.length) else none

/-- SentimentAnalyzer._get_word_intensity: High when an intensity word
occurs in the lowered 20 characters before the match, else Medium. -/
def wordIntensity (cfg : AnalyzerConfig) (text : String) (start : Nat) : String :=
  let before := pyLower (strSlice text (start - 20) start)
  if cfg.intensity_words.any (fun w => pyContains w before) then "High" else "Medium"

/-- SentimentAnalyzer._generate_highlights: word-boundary matches of every
positive then negative lexicon word over the lowered sentence, with the
original-case slice as the word, then sorted by start offset.  Starts are
pairwise distinct (a shorter lexicon word cannot end at a word boundary
inside a longer one), so the sort canonicalises the set iteration order. -/
def generateHighlights (cfg : AnalyzerConfig) (text : String) : List Highlight :=
  let lchars := (pyLower text).toList
  let mk : String → String → List Highlight := fun pol w =>
    (findWordMatches w.toList lchars).map fun pr =>
      ⟨strSlice text pr.1 pr.2, pol, pr.1, pr.2, wordIntensity cfg text pr.1⟩
  let pos := cfg.positive_words.flatMap (mk "Positive")
  let neg := cfg.negative_words.flatMap (mk "Negative")
  List.insertionSort (fun a b => a.start ≤ b.start) (pos ++ neg)

/-- Loop of SentimentAnalyzer._create_highlighted_text: parts before each
kept highlight, the bolded word, and the tail; a highlight starting before
the consumed end is skipped.  The source writes the same bolded text in
both intensity branches. -/
def buildParts (text : String) (lastEnd : Nat) : List Highlight → String
  | [] => strDropFrom text lastEnd
  | h :: rest =>
    if h.start < lastEnd then buildParts text lastEnd rest
    else strSlice text lastEnd h.start ++ "**" ++ h.word ++ "**" ++
      buildParts text h.stop rest

/-- SentimentAnalyzer._create_highlighted_text. -/
def createHighlightedText (text : String) (hs : List Highlight) : String :=
  if hs.isEmpty then text
  else buildParts text 0 (List.insertionSort (fun a b => a.start ≤ b.start) hs)

/-- The urgency cue words of the importance test. -/
def importanceCues : List String := ["action", "next", "follow", "deadline", "urgent"]

/-- The sentiment label thresholds, written inline twice in the source with
the same branches (in _analyze_sentence and in
_calculate_overall_sentiment): at least 0.05 is Positive, at most minus
0.05 is Negative, anything strictly between is Neutral. -/
def sentLabel (score : ℚ) : String :=
  if 0.05 ≤ score then "Positive"
  else if score ≤ -0.05 then "Negative"
  else "Neutral"

/-- One sentence result dict of SentimentAnalyzer._analyze_sentence.  The
vader_scores and textblob_scores keys default to empty dicts when the
corresponding analyzer is disabled, modelled as none. -/
structure SentenceRecord where
  text : String
  sentiment : String
  polarity : ℚ
  confidence : ℚ
  highlights : List Highlight
  highlighted_text : String
  is_important : Bool
  vader_scores : Option VaderScores
  textblob_scores : Option TBSent
deriving DecidableEq

/-- SentimentAnalyzer._analyze_sentence.  The combined score is the 0.7/0.3
blend when both analyzers are enabled, otherwise whichever is enabled (zero
when neither is).  The body never raises in this embedding, so the except
path that would attach an error key is not taken. -/
def analyzeSentence (ext : Externals) (cfg : AnalyzerConfig) (sentence : String) :
    SentenceRecord :=
  let vs := if cfg.use_vader then some (ext.vaderScores sentence) else none
  let vaderCompound : ℚ := match vs with | some v => v.compound | none => 0
  let tb := if cfg.use_textblob then some (ext.tbSentiment sentence) else none
  let tbPolarity : ℚ := match tb with | some t => t.polarity | none => 0
  let combined : ℚ :=
    if cfg.use_vader && cfg.use_textblob then
      vaderCompound * 0.7 + tbPolarity * 0.3
    else if cfg.use_vader then vaderCompound
    else tbPolarity
  let sentiment := sentLabel combined
  let confidence := |combined|
  let highlights := generateHighlights cfg sentence
  let isImp := decide (0.3 ≤ confidence) || !highlights.isEmpty ||
    importanceCues.any fun w => pyContains w (pyLower sentence)
  ⟨sentence, sentiment, combined, confidence, highlights,
    createHighlightedText sentence highlights, isImp, vs, tb⟩

/-- SentimentAnalyzer._extract_sentences: TextBlob sentence tokenization,
each sentence stripped, keeping those with at least three words. -/
def sentSentences (ext : Externals) (text : String) : List String :=
  ((ext.tbSentences text).map pyStrip).filter fun s => 3 ≤ (pySplitWs s).length

/-- The overall dict of SentimentAnalyzer._calculate_overall_sentiment. -/
structure OverallSent where
  overall : String
  score : ℚ
  confidence : ℚ
deriving DecidableEq

/-- SentimentAnalyzer._calculate_overall_sentiment.  Every record of this
embedding carries its polarity and confidence keys, so the key-presence
guard of the source is always true. -/
def calcOverall (rs : List SentenceRecord) : OverallSent :=
  if rs.isEmpty then ⟨"Neutral", 0, 0⟩
  else
    let totalWeight := (rs.map fun r => r.confidence).sum
    let weightedScore := (rs.map fun r => r.polarity * r.confidence).sum
    if totalWeight = 0 then ⟨"Neutral", 0, 0⟩
    else
      let avgScore := weightedScore / totalWeight
      let avgConfidence := totalWeight / (rs.length : ℚ)
      ⟨sentLabel avgScore, avgScore, min avgConfidence 1⟩

/-- Summary dict of SentimentAnalyzer: empty for no sentences, an error
dict on the failure path, or the statistics dict. -/
inductive SentSummary where
  | emptyDict
  | err (e : String)
  | stats (total_sentences : Nat) (positive negative neutral : Nat)
      (average_polarity average_confidence max_polarity min_polarity : ℚ)
      (important_sentences : Nat)
deriving DecidableEq

/-- SentimentAnalyzer._create_summary. -/
def createSummary (rs : List SentenceRecord) : SentSummary :=
  match rs with
  | [] => .emptyDict
  | r :: rest =>
    let polarities := (r :: rest).map fun x => x.polarity
    let confidences := (r :: rest).map fun x => x.confidence
    .stats (r :: rest).length
      ((r :: rest).countP fun x => x.sentiment = "Positive")
      ((r :: rest).countP fun x => x.sentiment = "Negative")
      ((r :: rest).countP fun x => x.sentiment = "Neutral")
      (polarities.sum / (polarities.length : ℚ))
      (confidences.sum / (confidences.length : ℚ))
      ((rest.map fun x => x.polarity).foldl max r.polarity)
      ((rest.map fun x => x.polarity).foldl min r.polarity)
      ((r :: rest).countP fun x => x.is_important)

/-- sentiment_analyzer.SentimentResult. -/
structure SentimentResult where
  overall : String
  score : ℚ
  confidence : ℚ
  sentences : List SentenceRecord
  summary : SentSummary
deriving DecidableEq

/-- SentimentAnalyzer._create_empty_result. -/
def emptySentResult (e : String) : SentimentResult :=
  ⟨"Neutral", 0, 0, [], .err e⟩

/-- SentimentAnalyzer.analyze.  Validation happens before the try block, so
an exception raised there (dict input with a non-string text value)
propagates; an invalid outcome yields the empty result; otherwise the
sentences are analyzed and aggregated. -/
def analyze (ext : Externals) (cfg : AnalyzerConfig) (v : PyVal) :
    Except PyExc SentimentResult :=
  match validate_transcript v with
  | .error e => .error e
  | .ok (.invalid err _) => .ok (emptySentResult err)
  | .ok (.valid cleanedText _) =>
    let recs := (sentSentences ext cleanedText).map (analyzeSentence ext cfg)
    let ov := calcOverall recs
    .ok ⟨ov.overall, ov.score, ov.confidence, recs, createSummary recs⟩

/-- SentimentAnalyzer.analyze as a method on the constructor state: no
attribute of self is ever assigned outside the constructor, so the state
is returned unchanged. -/
def analyzeMethod (cfg : AnalyzerConfig) (ext : Externals) (v : PyVal) :
    Except PyExc SentimentResult × AnalyzerConfig :=
  (analyze ext cfg v, cfg)

/-! ## core/insight_extractor.py -/

/-- insight_extractor.InsightType. -/
inductive InsightType where
  | problem
  | solution
  | action_item
  | opportunity
  | risk
  | decision
deriving DecidableEq

/-- The value strings of the InsightType enum. -/
def InsightType.value : InsightType → String
  | .problem => "problem"
  | .solution => "solution"
  | .action_item => "action_item"
  | .opportunity => "opportunity"
  | .risk => "risk"
  | .decision => "decision"

/-- Iteration order of the InsightType enum. -/
def insightTypesList : List InsightType :=
  [.problem, .solution, .action_item, .opportunity, .risk, .decision]

/-- Per-type configuration dict: pattern list, keywords, categories.  All
thirty regexes share the shape of a non-capturing alternation of literal
phrases, a greedy run over the class of whitespace, word characters,
apostrophe, comma and dash, and one sentence punctuation mark; each pattern
is represented by its alternation's literal list. -/
structure TypeConfig where
  patterns : List (List String)
  keywords : List String
  categories : List String
deriving DecidableEq

/-- InsightExtractor._initialize_patterns. -/
def initializePatterns : InsightType → TypeConfig
  | .problem =>
    ⟨[["problem", "issue", "challenge", "concern", "difficult", "trouble",
       "obstacle", "barrier", "pain point"],
      ["struggling", "facing", "dealing with", "having trouble with"],
      ["not working", "broken", "failed", "unsuccessful"],
      ["need to fix", "need to resolve", "need to address"],
      ["concerned about", "worried about", "anxious about"]],
     ["problem", "issue", "challenge", "concern", "difficult", "trouble",
      "struggling", "broken", "failed"],
     ["technical", "business", "process", "resource", "timeline"]⟩
  | .solution =>
    ⟨[["solution", "resolve", "fix", "address", "recommend", "suggest",
       "propose", "implement"],
      ["we can", "we should", "we need to", "let" ++ apos ++ "s", "how about"],
      ["best practice", "approach", "method", "strategy"],
      ["workaround", "alternative", "option"],
      ["upgrade", "improve", "enhance", "optimize"]],
     ["solution", "resolve", "fix", "address", "recommend", "suggest",
      "implement", "approach", "strategy"],
     ["technical", "process", "training", "resource", "timeline"]⟩
  | .action_item =>
    ⟨[["action item", "next step", "todo", "task", "follow up", "follow-up"],
      ["we need to", "we should", "we will", "we" ++ apos ++ "ll",
       "let" ++ apos ++ "s"],
      ["schedule", "plan", "arrange", "coordinate"],
      ["deadline", "due date", "timeline", "schedule"],
      ["assign", "delegate", "responsible", "owner"]],
     ["action", "next", "step", "todo", "task", "follow", "schedule",
      "deadline", "assign", "responsible"],
     ["immediate", "short_term", "long_term", "ongoing"]⟩
  | .opportunity =>
    ⟨[["opportunity", "potential", "possibility", "chance", "prospect"],
      ["could", "might", "may", "if we"],
      ["upsell", "cross-sell", "expand", "grow", "scale"],
      ["partnership", "collaboration", "joint", "together"],
      ["market", "customer", "client", "account"]],
     ["opportunity", "potential", "possibility", "chance", "upsell",
      "expand", "partnership", "market"],
     ["sales", "partnership", "expansion", "market", "product"]⟩
  | .risk =>
    ⟨[["risk", "threat", "danger", "concern", "worry"],
      ["if not", "unless", "otherwise", "or else"],
      ["budget", "cost", "expense", "financial"],
      ["timeline", "schedule", "deadline", "delay"],
      ["competition", "competitor", "market"]],
     ["risk", "threat", "danger", "concern", "worry", "budget", "cost",
      "timeline", "competition"],
     ["financial", "timeline", "competitive", "technical", "operational"]⟩
  | .decision =>
    ⟨[["decide", "decision", "choose", "select", "pick"],
      ["agree", "disagree", "approve", "reject"],
      ["final", "conclude", "determine", "resolve"],
      ["yes", "no", "maybe", "perhaps", "possibly"],
      ["go with", "proceed with", "move forward"]],
     ["decide", "decision", "choose", "select", "agree", "approve",
      "final", "conclude", "yes", "no"],
     ["approval", "selection", "direction", "commitment", "rejection"]⟩

/-- InsightExtractor._initialize_stop_words. -/
def stopWordsList : List String :=
  ["the", "a", "an", "and", "or", "but", "in", "on", "at", "to", "for",
   "of", "with", "by", "is", "are", "was", "were", "be", "been", "being",
   "have", "has", "had", "do", "does", "did", "will", "would", "could",
   "should", "may", "might", "must", "can", "this", "that", "these", "those"]

/-- Constructor state of InsightExtractor: the pattern dict and the stop
word set, assigned in the constructor and never mutated. -/
structure ExtractorConfig where
  patterns : InsightType → TypeConfig
  stop_words : List String

/-- InsightExtractor(). -/
def defaultExtractor : ExtractorConfig := ⟨initializePatterns, stopWordsList⟩

/-- The character class of the insight regex tails: whitespace, word
characters, apostrophe, comma, dash. -/
def insightCls (c : Char) : Bool :=
  pyIsSpace c || isWordChar c || c = '\'' || c = ',' || c = '-'

/-- Match of one alternation literal at the head of the text: the literal
case-insensitively, then the greedy class run, then one sentence
punctuation mark.  The class excludes sentence punctuation, so the greedy
run ends exactly at the first non-class character and needs no further
backtracking.  Returns the matched text and the remainder. -/
def tryAlt (alt : List Char) (l : List Char) : Option (List Char × List Char) :=
  match ciTakeLit alt l with
  | none => none
  | some (m, r) =>
    let run := r.takeWhile insightCls
    match r.dropWhile insightCls with
    | p :: rest => if isSentPunct p then some (m ++ run ++ [p], rest) else none
    | [] => none

/-- Alternation: the first literal (in source order) whose full pattern
matches at this position wins. -/
def tryAlts : List (List Char) → List Char → Option (List Char × List Char)
  | [], _ => none
  | a :: as, l =>
    match tryAlt a l with
    | some res => some res
    | none => tryAlts as l

/-- Python re.findall of one insight pattern (IGNORECASE; MULTILINE only
affects anchors, which the patterns lack): scan left to right, at each
position try the alternation, emit the match and resume after it.  A match
always consumes at least its punctuation mark, so fuel equal to the text
length suffices. -/
def findallF (alts : List (List Char)) : Nat → List Char → List String
  | 0, _ => []
  | _ + 1, [] => []
  | fuel + 1, c :: cs =>
    match tryAlts alts (c :: cs) with
    | some (m, rest) => (⟨m⟩ : String) :: findallF alts fuel rest
    | none => findallF alts fuel cs

def findall (alts : List String) (text : String) : List String :=
  findallF (alts.map String.toList) text.toList.length text.toList

/-- The three ordered leading filler/hedge alternations stripped by
InsightExtractor._clean_insight_text (anchored, IGNORECASE, each with a
trailing greedy whitespace run). -/
def hedgeAlts1 : List String :=
  ["so", "well", "okay", "ok", "alright", "right", "yes", "no", "sure",
   "absolutely", "definitely"]

def hedgeAlts2 : List String :=
  ["i think", "i believe", "i feel", "i guess", "i suppose"]

def hedgeAlts3 : List String :=
  ["we need to", "we should", "we can", "we will", "we" ++ apos ++ "ll"]

/-- One anchored hedge substitution: the first alternation literal matching
case-insensitively at the head is removed together with the following
whitespace run. -/
def removeHedgeAux : List (List Char) → List Char → List Char
  | [], l => l
  | a :: as, l =>
    match ciTakeLit a l with
    | some (_, r) => r.dropWhile pyIsSpace
    | none => removeHedgeAux as l

/-- InsightExtractor._clean_insight_text: strip, collapse whitespace runs,
apply the three hedge substitutions in order, strip again. -/
def cleanInsightText (s : String) : String :=
  let c1 := collapseWs (pyStripList s.toList)
  let c2 := removeHedgeAux (hedgeAlts1.map String.toList) c1
  let c3 := removeHedgeAux (hedgeAlts2.map String.toList) c2
  let c4 := removeHedgeAux (hedgeAlts3.map String.toList) c3
  ⟨pyStripList c4⟩

/-- InsightExtractor._is_valid_insight: at least ten characters, at least
three words, and a stop-word share of at most 0.7. -/
def isValidInsight (stopWords : List String) (s : String) : Bool :=
  if s = "" || s.length < 10 then false
  else
    let words := pySplitWs s
    if words.length < 3 then false
    else
      let stopCount := words.countP fun w => stopWords.contains (pyLower w)
      !(decide ((0.7 : ℚ) < (stopCount : ℚ) / (words.length : ℚ)))

/-- The action cue words of the confidence score. -/
def actionWordsList : List String := ["will", "should", "need", "must", "can", "could"]

/-- InsightExtractor._calculate_insight_confidence: 0.2 per type keyword
occurring in the lowered text capped at 0.6, plus 0.2 for more than ten
words or 0.1 for more than five, plus 0.1 per action cue capped at 0.2,
everything capped at 1. -/
def calcInsightConfidence (keywords : List String) (s : String) : ℚ :=
  let lower := pyLower s
  let keywordMatches := keywords.countP fun k => pyContains k lower
  let base := min ((keywordMatches : ℚ) * 0.2) 0.6
  let wc := (pySplitWs s).length
  let lenBoost : ℚ := if 10 < wc then 0.2 else if 5 < wc then 0.1 else 0
  let actionMatches := actionWordsList.countP fun k => pyContains k lower
  min (base + lenBoost + min ((actionMatches : ℚ) * 0.1) 0.2) 1

/-- InsightExtractor._extract_keywords: the type keywords occurring in the
lowered text, in list order. -/
def extractKeywords (keywords : List String) (s : String) : List String :=
  keywords.filter fun k => pyContains k (pyLower s)

/-- The cross-type keyword-to-category dict of
InsightExtractor._categorize_insight, in insertion order. -/
def categoryTable : List (String × List String) :=
  [("technical", ["technical", "system", "software", "hardware", "bug", "error", "code"]),
   ("business", ["business", "revenue", "profit", "customer", "market", "sales"]),
   ("process", ["process", "workflow", "procedure", "method", "approach"]),
   ("resource", ["resource", "budget", "cost", "money", "funding", "staff", "team"]),
   ("timeline", ["timeline", "schedule", "deadline", "date", "time", "urgent", "priority"])]

/-- InsightExtractor._categorize_insight: first table category with a
keyword occurring in the lowered text; else the type's first category, or
general when the type has none. -/
def categorizeInsight (categories : List String) (s : String) : String :=
  let lower := pyLower s
  match categoryTable.find? (fun e => e.2.any fun k => pyContains k lower) with
  | some e => e.1
  | none => categories.headD "general"

/-- The high-priority cue words of InsightExtractor._determine_priority. -/
def highPriorityWords : List String :=
  ["urgent", "critical", "important", "asap", "immediately", "deadline"]

/-- InsightExtractor._determine_priority. -/
def determinePriority (s : String) (ty : InsightType) (confidence : ℚ) : String :=
  let lower := pyLower s
  if highPriorityWords.any (fun w => pyContains w lower) then "high"
  else if (ty = .action_item ∨ ty = .problem) ∧ (0.5 : ℚ) < confidence then "medium"
  else if ty = .opportunity ∨ ty = .decision then "low"
  else "medium"

/-- InsightExtractor._extract_context: when the lowered candidate occurs in
the lowered transcript, the first sentence (of the punctuation split)
containing it plus its neighbours, joined and stripped; the join of an
empty selection when no single sentence contains the candidate; the
candidate itself when the transcript does not contain it. -/
def extractContext (s fullText : String) : String :=
  let tl := pyLower s
  if !(pyContains tl (pyLower fullText)) then s
  else
    let sentences := (splitSentRuns fullText.toList).map fun l => (⟨l⟩ : String)
    match sentences.findIdx? (fun sent => pyContains tl (pyLower sent)) with
    | none => ""
    | some i =>
      pyStrip (joinWithSpace (listSlice sentences (i - 1)
        (min sentences.length (i + 2))))

/-- insight_extractor.Insight. -/
structure Insight where
  text : String
  type : InsightType
  confidence : ℚ
  category : String
  keywords : List String
  context : String
  priority : String
deriving DecidableEq

/-- InsightExtractor._create_insight (total in this embedding, so the
except path returning None is never taken). -/
def createInsight (cfg : TypeConfig) (text : String) (ty : InsightType)
    (fullText : String) : Insight :=
  let confidence := calcInsightConfidence cfg.keywords text
  { text := text
    type := ty
    confidence := confidence
    category := categorizeInsight cfg.categories text
    keywords := extractKeywords cfg.keywords text
    context := extractContext text fullText
    priority := determinePriority text ty confidence }

/-- InsightExtractor._deduplicate_insights: keep the first insight for each
lowered text; seen is the set of lowered texts already kept. -/
def dedupeInsights (seen : List String) : List Insight → List Insight
  | [] => []
  | i :: rest =>
    if seen.contains (pyLower i.text) then dedupeInsights seen rest
    else i :: dedupeInsights (pyLower i.text :: seen) rest

/-- InsightExtractor._extract_insights_by_type: pool the matches of the
type's patterns in order, clean each, keep the valid ones as insights,
deduplicate, and sort by descending confidence (Python sort is stable;
insertionSort with this relation keeps the order of equal keys). -/
def extractByType (ecfg : ExtractorConfig) (text : String) (ty : InsightType) :
    List Insight :=
  let cfg := ecfg.patterns ty
  let pooled := (cfg.patterns.flatMap fun alts => findall alts text).filterMap
    fun m =>
      let cleaned := cleanInsightText m
      if isValidInsight ecfg.stop_words cleaned then
        some (createInsight cfg cleaned ty text)
      else none
  List.insertionSort (fun a b => b.confidence ≤ a.confidence)
    (dedupeInsights [] pooled)

/-- One entry of the detailed_insights lists. -/
structure DetailedInsight where
  text : String
  confidence : ℚ
  category : String
  keywords : List String
  priority : String
deriving DecidableEq

def toDetailed (i : Insight) : DetailedInsight :=
  ⟨i.text, i.confidence, i.category, i.keywords, i.priority⟩

/-- Metadata dict of an insight report. -/
structure InsightMetadata where
  total_insights : Nat
  insights_by_type : List (String × Nat)
  extraction_confidence : ℚ
  high_priority_items : List String
  error : Option String
deriving DecidableEq

/-- insight report dict returned by InsightExtractor.extract_insights. -/
structure InsightReport where
  problems : List String
  solutions : List String
  action_items : List String
  opportunities : List String
  risks : List String
  decisions : List String
  metadata : InsightMetadata
  detailed_insights : List (String × List DetailedInsight)
deriving DecidableEq

/-- Round half to even at the integer, as Python round does on the exact
value. -/
def roundHalfEven (q : ℚ) : ℤ :=
  let f := ⌊q⌋
  let r := q - (f : ℚ)
  if r < 1/2 then f
  else if 1/2 < r then f + 1
  else if f % 2 = 0 then f else f + 1

/-- Python round(x, 3) on the exact rational value. -/
def pyRound3 (q : ℚ) : ℚ := ((roundHalfEven (q * 1000) : ℤ) : ℚ) / 1000

/-- InsightExtractor._calculate_extraction_confidence: mean kept-insight
confidence rounded to three decimals, zero when none. -/
def calcExtractionConfidence (insights : List Insight) : ℚ :=
  if insights.isEmpty then 0
  else pyRound3 (((insights.map fun i => i.confidence).sum) / (insights.length : ℚ))

/-- InsightExtractor._create_empty_result. -/
def emptyInsightReport (e : String) : InsightReport :=
  ⟨[], [], [], [], [], [], ⟨0, [], 0, [], some e⟩, []⟩

/-- InsightExtractor.extract_insights.  Validation happens before the try
block, so an exception raised there propagates; an invalid outcome yields
the empty report; otherwise the per-type extractions are assembled into the
report (all_insights is the concatenation in enum order). -/
def extract_insights (ecfg : ExtractorConfig) (v : PyVal) :
    Except PyExc InsightReport :=
  match validate_transcript v with
  | .error e => .error e
  | .ok (.invalid err _) => .ok (emptyInsightReport err)
  | .ok (.valid cleanedText _) =>
    let byType := fun t => extractByType ecfg cleanedText t
    let allInsights := insightTypesList.flatMap byType
    .ok
      { problems := (byType .problem).map fun i => i.text
        solutions := (byType .solution).map fun i => i.text
        action_items := (byType .action_item).map fun i => i.text
        opportunities := (byType .opportunity).map fun i => i.text
        risks := (byType .risk).map fun i => i.text
        decisions := (byType .decision).map fun i => i.text
        metadata :=
          { total_insights := allInsights.length
            insights_by_type := insightTypesList.map fun t => (t.value, (byType t).length)
            extraction_confidence := calcExtractionConfidence allInsights
            high_priority_items :=
              (allInsights.filter fun i => i.priority = "high").map fun i => i.text
            error := none }
        detailed_insights :=
          insightTypesList.map fun t => (t.value, (byType t).map toDetailed) }

/-- InsightExtractor.extract_insights as a method on the constructor state:
no attribute of self is ever assigned outside the constructor, so the
state is returned unchanged. -/
def extractMethod (ecfg : ExtractorConfig) (v : PyVal) :
    Except PyExc InsightReport × ExtractorConfig :=
  (extract_insights ecfg v, ecfg)

/-! ## Concrete instances used in the verification -/

/-- The three-line speaker transcript of Scenario 6 (also the input shape of
the repository's own test_speaker_extraction). -/
def c1input : String :=
  "John: Hello everyone!\nMary: Hi John, how are you?\nJohn: I" ++ apos ++
  "m doing great, thanks."

/-- External analyzers returning zero scores and no sentences. -/
def zeroExternals : Externals :=
  ⟨fun _ => ⟨0, 0, 0, 0⟩, fun _ => ⟨0, 0⟩, fun _ => []⟩

/-- External analyzers returning the boundary score 0.05 from both
sub-analyzers, so the blended score is exactly 0.05. -/
def posExternals : Externals :=
  ⟨fun _ => ⟨0, 0, 0, 0.05⟩, fun _ => ⟨0.05, 0⟩, fun _ => []⟩

/-- External analyzers returning the boundary score minus 0.05 from both
sub-analyzers, so the blended score is exactly minus 0.05. -/
def negExternals : Externals :=
  ⟨fun _ => ⟨0, 0, 0, -0.05⟩, fun _ => ⟨-0.05, 0⟩, fun _ => []⟩

/-- A concrete sentence record with polarity 1 and confidence one half. -/
def wRec : SentenceRecord :=
  ⟨"x", "Positive", 1, 1/2, [], "x", true, none, none⟩

/-- The one insight the extractor finds in the text
"we have a problem with the system." (the context is empty because the
candidate keeps its final period, which no single sentence of the
punctuation split contains). -/
def c7insight : Insight :=
  ⟨"problem with the system.", .problem, 1/5, "technical", ["problem"], "", "medium"⟩

/-- The sentiment result for a valid transcript whose external tokenizer
returns no sentences. -/
def c7result : SentimentResult := ⟨"Neutral", 0, 0, [], .emptyDict⟩

/-- The full insight report for "we have a problem with the system.". -/
def c8report : InsightReport :=
  { problems := ["problem with the system."]
    solutions := []
    action_items := []
    opportunities := []
    risks := []
    decisions := []
    metadata :=
      { total_insights := 1
        insights_by_type :=
          [("problem", 1), ("solution", 0), ("action_item", 0),
           ("opportunity", 0), ("risk", 0), ("decision", 0)]
        extraction_confidence := 1/5
        high_priority_items := []
        error := none }
    detailed_insights :=
      [("problem", [⟨"problem with the system.", 1/5, "technical", ["problem"], "medium"⟩]),
       ("solution", []), ("action_item", []), ("opportunity", []),
       ("risk", []), ("decision", [])] }

/-- Specification-side count for C6: the number of distinct type keywords
occurring in the lower-cased text. -/
def specDistinctKeywordCount (kws : List String) (s : String) : ℚ :=
  (((kws.filter fun k => pyContains k (pyLower s)).dedup).length : ℚ)

/-- Specification-side word-count bonus for C6: 0.2 above ten words, 0.1
above five, else zero. -/
def specLenBoost (s : String) : ℚ :=
  if 10 < (pySplitWs s).length then 0.2
  else if 5 < (pySplitWs s).length then 0.1 else 0

/-- Specification-side count for C6: the number of the action words
will / should / need / must / can / could occurring in the lower-cased
text. -/
def specActionCount (s : String) : ℚ :=
  (((actionWordsList.filter fun k => pyContains k (pyLower s)).dedup).length : ℚ)

/-! ## Helper lemmas -/

theorem sentLabel_pos (q : ℚ) (h : 0.05 ≤ q) : sentLabel q = "Positive" := by
  unfold sentLabel
  rw [if_pos h]

theorem sentLabel_negative (q : ℚ) (h : q ≤ -0.05) : sentLabel q = "Negative" := by
  unfold sentLabel
  rw [if_neg (by push_neg; linarith), if_pos h]

theorem sentLabel_neutral (q : ℚ) (h1 : -0.05 < q) (h2 : q < 0.05) :
    sentLabel q = "Neutral" := by
  unfold sentLabel
  rw [if_neg (by push_neg; linarith), if_neg (by push_neg; linarith)]

theorem extractSentencesLoop_eq (fs : List (List Char)) :
    extractSentencesLoop fs =
      ((fs.map fun l => (⟨pyStripList l⟩ : String)).filter fun s => 10 < s.length) := by
  induction fs with
  | nil => rfl
  | cons f rest ih =>
    simp only [extractSentencesLoop, List.map_cons, List.filter_cons, ih]
    have hlen : (⟨pyStripList f⟩ : String).length = (pyStripList f).length := rfl
    by_cases h : 10 < (pyStripList f).length
    · simp [h, hlen]
    · simp [h, hlen]

theorem calcInsightConfidence_bounds (kws : List String) (s : String) :
    0 ≤ calcInsightConfidence kws s ∧ calcInsightConfidence kws s ≤ 1 := by
  simp only [calcInsightConfidence]
  refine ⟨le_min ?_ (by norm_num), min_le_right _ _⟩
  have h1 : (0:ℚ) ≤ min (((kws.countP fun k => pyContains k (pyLower s)) : ℚ) * 0.2) 0.6 :=
    le_min (by positivity) (by norm_num)
  have h2 : (0:ℚ) ≤ (if 10 < (pySplitWs s).length then (0.2:ℚ)
      else if 5 < (pySplitWs s).length then 0.1 else 0) := by
    split_ifs <;> norm_num
  have h3 : (0:ℚ) ≤ min (((actionWordsList.countP fun k => pyContains k (pyLower s)) : ℚ) * 0.1) 0.2 :=
    le_min (by positivity) (by norm_num)
  linarith

theorem dedupeInsights_mem (l : List Insight) :
    ∀ (seen : List String) (i : Insight), i ∈ dedupeInsights seen l → i ∈ l := by
  induction l with
  | nil => intro seen i h; simp [dedupeInsights] at h
  | cons a t ih =>
    intro seen i h
    unfold dedupeInsights at h
    by_cases hc : seen.contains (pyLower a.text)
    · rw [if_pos hc] at h
      exact List.mem_cons_of_mem a (ih seen i h)
    · rw [if_neg hc] at h
      rcases List.mem_cons.mp h with rfl | h2
      · exact List.mem_cons_self _ _
      · exact List.mem_cons_of_mem a (ih _ i h2)

theorem dedupeInsights_not_seen (l : List Insight) :
    ∀ (seen : List String) (i : Insight), i ∈ dedupeInsights seen l →
      seen.contains (pyLower i.text) = false := by
  induction l with
  | nil => intro seen i h; simp [dedupeInsights] at h
  | cons a t ih =>
    intro seen i h
    unfold dedupeInsights at h
    by_cases hc : seen.contains (pyLower a.text)
    · rw [if_pos hc] at h
      exact ih seen i h
    · rw [if_neg hc] at h
      rcases List.mem_cons.mp h with rfl | h2
      · simpa using hc
      · have h3 := ih _ i h2
        simp only [List.contains_cons, Bool.or_eq_false_iff] at h3
        exact h3.2

theorem dedupeInsights_pairwise (l : List Insight) :
    ∀ seen : List String, (dedupeInsights seen l).Pairwise
      fun a b => pyLower a.text ≠ pyLower b.text := by
  induction l with
  | nil => intro seen; simp [dedupeInsights]
  | cons a t ih =>
    intro seen
    unfold dedupeInsights
    by_cases hc : seen.contains (pyLower a.text)
    · rw [if_pos hc]; exact ih _
    · rw [if_neg hc]
      refine List.Pairwise.cons ?_ (ih _)
      intro j hj heq
      have hns := dedupeInsights_not_seen t _ j hj
      simp only [List.contains_cons, Bool.or_eq_false_iff] at hns
      exact absurd (beq_iff_eq.mpr heq.symm) (by simp [hns.1])

theorem extractByType_pairwise (ecfg : ExtractorConfig) (text : String)
    (ty : InsightType) :
    (extractByType ecfg text ty).Pairwise
      fun a b => pyLower a.text ≠ pyLower b.text := by
  simp only [extractByType]
  exact ((List.perm_insertionSort _ _).pairwise_iff
    fun h heq => h heq.symm).mpr (dedupeInsights_pairwise _ _)

theorem mem_extractByType_conf (ecfg : ExtractorConfig) (text : String)
    (ty : InsightType) (i : Insight) (h : i ∈ extractByType ecfg text ty) :
    ∃ t : String, i.confidence = calcInsightConfidence (ecfg.patterns ty).keywords t := by
  simp only [extractByType] at h
  rw [List.mem_insertionSort] at h
  have h2 := dedupeInsights_mem _ _ _ h
  rw [List.mem_filterMap] at h2
  obtain ⟨m, _, hm⟩ := h2
  by_cases hv : isValidInsight ecfg.stop_words (cleanInsightText m)
  · rw [if_pos hv] at hm
    injection hm with hi
    exact ⟨cleanInsightText m, by rw [← hi]; rfl⟩
  · rw [if_neg hv] at hm
    exact absurd hm (by simp)

theorem analyzeSentence_conf_abs (ext : Externals) (cfg : AnalyzerConfig) (s : String) :
    (analyzeSentence ext cfg s).confidence = |(analyzeSentence ext cfg s).polarity| := rfl

theorem analyzeSentence_conf_bounds (ext : Externals) (cfg : AnalyzerConfig) (s : String)
    (hv : ∀ u, |(ext.vaderScores u).compound| ≤ 1)
    (ht : ∀ u, |(ext.tbSentiment u).polarity| ≤ 1) :
    0 ≤ (analyzeSentence ext cfg s).confidence ∧
      (analyzeSentence ext cfg s).confidence ≤ 1 := by
  refine ⟨(analyzeSentence_conf_abs ext cfg s) ▸ abs_nonneg _, ?_⟩
  rw [analyzeSentence_conf_abs]
  rcases h1 : cfg.use_vader <;> rcases h2 : cfg.use_textblob <;>
    simp only [analyzeSentence, h1, h2, Bool.and_self, Bool.and_true, Bool.and_false,
      Bool.true_and, Bool.false_and, if_true, if_false, ite_true, ite_false]
  · norm_num
  · simpa using ht s
  · simpa using hv s
  · have habs := abs_add ((ext.vaderScores s).compound * 0.7)
      ((ext.tbSentiment s).polarity * 0.3)
    rw [abs_mul, abs_mul] at habs
    have hv2 := hv s
    have ht2 := ht s
    have e1 : |(0.7:ℚ)| = 0.7 := by norm_num
    have e2 : |(0.3:ℚ)| = 0.3 := by norm_num
    rw [e1, e2] at habs
    nlinarith [abs_nonneg ((ext.vaderScores s).compound),
      abs_nonneg ((ext.tbSentiment s).polarity)]

theorem calcOverall_conf_bounds (rs : List SentenceRecord)
    (h : ∀ x ∈ rs, 0 ≤ x.confidence) :
    0 ≤ (calcOverall rs).confidence ∧ (calcOverall rs).confidence ≤ 1 := by
  by_cases he : rs.isEmpty
  · simp [calcOverall, he]
  · by_cases hw : (rs.map fun r => r.confidence).sum = 0
    · simp [calcOverall, he, hw]
    · have hsum : 0 ≤ (rs.map fun r => r.confidence).sum := by
        apply List.sum_nonneg
        intro x hx
        rw [List.mem_map] at hx
        obtain ⟨r, hr, rfl⟩ := hx
        exact h r hr
      constructor
      · simp only [calcOverall, he, hw, if_false, ite_false]
        exact le_min (div_nonneg hsum (by positivity)) (by norm_num)
      · simp only [calcOverall, he, hw, if_false, ite_false]
        exact min_le_right _ _

/-! ## Claim theorems -/

/-- C1: for the three-line speaker-labelled Scenario 6 input, the Text
Normalizer's process operation does not return the speaker set
containing John and Mary: the cleaning pipeline collapses the newlines into
spaces before speakers are extracted, so the line-anchored label patterns
see a single line and the returned speaker list is exactly the singleton
John.  This evaluates the code at the failing input of the claim (and of
the repository's own test_speaker_extraction, which asserts two
speakers). -/
theorem c1_speaker_set_failing : (process c1input).speakers = ["John"] ∧
    "Mary" ∉ (process c1input).speakers := by decide

/-- C2 counterexample: a dict whose "text" value is None is an invalid
input of the claim's classes (a non-text value), yet analyze and
extract_insights propagate an AttributeError to the caller instead of
returning an error-carrying empty result, because validation runs before
the try block. -/
theorem c2_counterexample :
    analyze zeroExternals defaultAnalyzer (.vDictWithText .vNone) = .error .attributeError ∧
    extract_insights defaultExtractor (.vDictWithText .vNone) = .error .attributeError ∧
    ∀ r, analyze zeroExternals defaultAnalyzer (.vDictWithText .vNone) ≠ .ok r := by
  refine ⟨rfl, rfl, ?_⟩
  intro r h
  exact absurd h (by simp [analyze, validate_transcript])

/-- C2 as amended: whenever validation reports an invalid input, analyze
returns the Neutral zero-score zero-confidence result with an empty
sentence list and the error in its summary, and extract_insights returns
the report with all six per-type lists empty and the error in its
metadata; inputs that are None, dicts without a text key, values of other
non-string types, whitespace-only strings, and strings without an
alphabetic character are all reported invalid.  (A dict carrying a
non-string text value instead raises, per the counterexample.) -/
theorem c2_invalid_inputs_recovered :
    (∀ (ext : Externals) (acfg : AnalyzerConfig) (ecfg : ExtractorConfig)
      (v : PyVal) (err : String) (ws : List String),
      validate_transcript v = .ok (.invalid err ws) →
      analyze ext acfg v = .ok (emptySentResult err) ∧
      extract_insights ecfg v = .ok (emptyInsightReport err)) ∧
    validate_transcript .vNone = .ok (.invalid "Transcript cannot be None" []) ∧
    validate_transcript .vDictNoText =
      .ok (.invalid "Transcript must be a string, received dict" []) ∧
    (∀ t, validate_transcript (.vOther t) =
      .ok (.invalid ("Transcript must be a string, received " ++ t) [])) ∧
    (∀ s, pyStrip s = "" →
      validate_transcript (.vStr s) = .ok (.invalid "Transcript is empty" [])) ∧
    (∀ s, pyStrip s ≠ "" → (∀ c ∈ (pyStrip s).toList, c.isAlpha = false) →
      ∃ ws, validate_transcript (.vStr s) =
        .ok (.invalid "Transcript contains no alphabetic characters" ws)) := by
  refine ⟨?_, rfl, rfl, fun t => rfl, ?_, ?_⟩
  · intro ext acfg ecfg v err ws h
    constructor
    · simp only [analyze, h]
    · simp only [extract_insights, h]
  · intro s h
    simp [validate_transcript, validateStr, h]
  · intro s h1 h2
    have hany : ((pyStrip s).toList.any fun c => c.isAlpha) = false := by
      rw [List.any_eq_false]
      intro c hc
      simp [h2 c hc]
    refine ⟨(if (pyStrip s).length < 10 then
        ["Transcript is very short (less than 10 characters)"] else []) ++
      (if 50000 < (pyStrip s).length then
        ["Transcript is very long (over 50,000 characters)"] else []), ?_⟩
    simp only [validate_transcript, validateStr, h1, hany, if_false, ite_false,
      Bool.not_false, if_true, ite_true]

/-- C2 witness: the empty string is reported invalid and both entry points
return the error-carrying empty results for it. -/
theorem c2_witness :
    analyze zeroExternals defaultAnalyzer (.vStr "") = .ok (emptySentResult "Transcript is empty") ∧
    extract_insights defaultExtractor (.vStr "") = .ok (emptyInsightReport "Transcript is empty") :=
  c2_invalid_inputs_recovered.1 zeroExternals defaultAnalyzer defaultExtractor
    (.vStr "") "Transcript is empty" [] rfl

/-- C3: for every analyzed sentence the label is determined from the
combined score exactly at the plus and minus 0.05 thresholds: at least
0.05 (including exactly 0.05) is Positive, at most minus 0.05 (including
exactly minus 0.05) is Negative, and strictly between is Neutral. -/
theorem c3_label_thresholds (ext : Externals) (cfg : AnalyzerConfig) (s : String) :
    ((0.05:ℚ) ≤ (analyzeSentence ext cfg s).polarity →
      (analyzeSentence ext cfg s).sentiment = "Positive") ∧
    ((analyzeSentence ext cfg s).polarity ≤ -0.05 →
      (analyzeSentence ext cfg s).sentiment = "Negative") ∧
    (-0.05 < (analyzeSentence ext cfg s).polarity →
      (analyzeSentence ext cfg s).polarity < 0.05 →
      (analyzeSentence ext cfg s).sentiment = "Neutral") := by
  have hkey : (analyzeSentence ext cfg s).sentiment =
      sentLabel ((analyzeSentence ext cfg s).polarity) := rfl
  refine ⟨fun h => ?_, fun h => ?_, fun h1 h2 => ?_⟩
  · rw [hkey]; exact sentLabel_pos _ h
  · rw [hkey]; exact sentLabel_negative _ h
  · rw [hkey]; exact sentLabel_neutral _ h1 h2

/-- C3 witness: external scores making the blended score exactly 0.05,
exactly minus 0.05, and zero produce the labels Positive, Negative and
Neutral on a concrete sentence. -/
theorem c3_witness :
    (analyzeSentence posExternals defaultAnalyzer "x").sentiment = "Positive" ∧
    (analyzeSentence negExternals defaultAnalyzer "x").sentiment = "Negative" ∧
    (analyzeSentence zeroExternals defaultAnalyzer "x").sentiment = "Neutral" :=
  ⟨(c3_label_thresholds posExternals defaultAnalyzer "x").1 (by decide),
   (c3_label_thresholds negExternals defaultAnalyzer "x").2.1 (by decide),
   (c3_label_thresholds zeroExternals defaultAnalyzer "x").2.2 (by decide) (by decide)⟩

/-- C4 counterexample: the fragment abcdefghij of the punctuation split is
trimmed, has length exactly ten, yet does not appear in the extracted
sentence list, because the source keeps only fragments of length strictly
greater than ten. -/
theorem c4_counterexample :
    "abcdefghij" ∈ ((splitSentRuns ("abcdefghij. this is a longer sentence.").toList).map
      fun l => (⟨pyStripList l⟩ : String)) ∧
    ("abcdefghij" : String).length = 10 ∧
    pyStrip "abcdefghij" = "abcdefghij" ∧
    "abcdefghij" ∉ extractSentences "abcdefghij. this is a longer sentence." := by
  decide

/-- C4 as amended: the sentence extraction equals the punctuation split
with every fragment trimmed and exactly the fragments of length at most
ten discarded (so a fragment survives exactly when its trimmed length
exceeds ten), in scan order. -/
theorem c4_sentence_extraction (text : String) :
    extractSentences text =
      ((splitSentRuns text.toList).map fun l => (⟨pyStripList l⟩ : String)).filter
        fun s => 10 < s.length := by
  unfold extractSentences
  exact extractSentencesLoop_eq _

/-- C5: the document-level score is the confidence-weighted mean of the
per-sentence polarities; when the total weight is zero the overall result
is Neutral with zero score and confidence; otherwise the overall
confidence is the sum of the per-sentence confidences divided by the
sentence count, capped at one. -/
theorem c5_overall_aggregation (rs : List SentenceRecord) :
    ((rs.map fun r => r.confidence).sum = 0 → calcOverall rs = ⟨"Neutral", 0, 0⟩) ∧
    ((rs.map fun r => r.confidence).sum ≠ 0 →
      (calcOverall rs).score =
        ((rs.map fun r => r.polarity * r.confidence).sum) /
          ((rs.map fun r => r.confidence).sum) ∧
      (calcOverall rs).confidence =
        min (((rs.map fun r => r.confidence).sum) / (rs.length : ℚ)) 1) := by
  constructor
  · intro h
    by_cases he : rs.isEmpty
    · simp [calcOverall, he]
    · simp [calcOverall, he, h]
  · intro h
    have he : rs.isEmpty = false := by
      cases rs with
      | nil => simp at h
      | cons a l => rfl
    constructor <;> simp [calcOverall, he, h]

/-- C5 witness: one sentence with polarity one and confidence one half has
total weight one half, weighted-mean score one, and overall confidence one
half. -/
theorem c5_witness :
    (calcOverall [wRec]).score =
      (([wRec].map fun r => r.polarity * r.confidence).sum) /
        (([wRec].map fun r => r.confidence).sum) ∧
    (calcOverall [wRec]).confidence =
      min ((([wRec].map fun r => r.confidence).sum) / (([wRec] : List SentenceRecord).length : ℚ)) 1 :=
  (c5_overall_aggregation [wRec]).2 (by decide)

/-- C6: for every duplicate-free keyword list (as all six type keyword
lists are) and every candidate text, the insight confidence equals the
claim's closed form: one fifth per distinct occurring keyword capped at
0.6, plus the word-count bonus, plus one tenth per occurring action word
capped at 0.2, everything capped at one. -/
theorem c6_confidence_formula (kws : List String) (s : String) (h : kws.Nodup) :
    calcInsightConfidence kws s =
      min 1 (min (0.2 * specDistinctKeywordCount kws s) 0.6 + specLenBoost s +
        min (0.1 * specActionCount s) 0.2) := by
  unfold calcInsightConfidence specDistinctKeywordCount specLenBoost specActionCount
  rw [(h.filter _).dedup, ((show actionWordsList.Nodup by decide).filter _).dedup]
  rw [min_comm _ (1 : ℚ)]
  congr 1
  congr 2
  · congr 1
    rw [mul_comm, List.countP_eq_length_filter]
  · rw [mul_comm, List.countP_eq_length_filter]

/-- C6 witness: the formula evaluated for the problem keyword list (which
is duplicate-free) on a concrete candidate. -/
theorem c6_witness :
    calcInsightConfidence (initializePatterns .problem).keywords
        "we must fix the broken system now and later" =
      min 1 (min (0.2 * specDistinctKeywordCount (initializePatterns .problem).keywords
          "we must fix the broken system now and later") 0.6 +
        specLenBoost "we must fix the broken system now and later" +
        min (0.1 * specActionCount "we must fix the broken system now and later") 0.2) :=
  c6_confidence_formula _ _ (by decide)

/-- C7: every confidence the pipeline produces lies in the closed unit
interval: every extracted insight's confidence; every analyzed sentence's
confidence (the absolute value of its combined score, bounded when the
external sub-analyzers return scores in the minus-one-to-one range their
contracts promise); and the overall document confidence of every analyze
result (together with all its per-sentence confidences). -/
theorem c7_confidence_bounds :
    (∀ (ecfg : ExtractorConfig) (text : String) (ty : InsightType),
      ∀ i ∈ extractByType ecfg text ty, 0 ≤ i.confidence ∧ i.confidence ≤ 1) ∧
    (∀ (ext : Externals) (cfg : AnalyzerConfig) (s : String),
      (∀ u, |(ext.vaderScores u).compound| ≤ 1) →
      (∀ u, |(ext.tbSentiment u).polarity| ≤ 1) →
      0 ≤ (analyzeSentence ext cfg s).confidence ∧
        (analyzeSentence ext cfg s).confidence ≤ 1) ∧
    (∀ (ext : Externals) (cfg : AnalyzerConfig) (v : PyVal) (r : SentimentResult),
      analyze ext cfg v = .ok r →
      (0 ≤ r.confidence ∧ r.confidence ≤ 1) ∧
      ((∀ u, |(ext.vaderScores u).compound| ≤ 1) →
       (∀ u, |(ext.tbSentiment u).polarity| ≤ 1) →
       ∀ rec ∈ r.sentences, 0 ≤ rec.confidence ∧ rec.confidence ≤ 1)) := by
  refine ⟨?_, analyzeSentence_conf_bounds, ?_⟩
  · intro ecfg text ty i h
    obtain ⟨t, ht⟩ := mem_extractByType_conf ecfg text ty i h
    rw [ht]
    exact calcInsightConfidence_bounds _ _
  · intro ext cfg v r h
    rcases hval : validate_transcript v with e | vr
    · simp only [analyze, hval] at h
      exact absurd h (by simp)
    · cases vr with
      | invalid err ws =>
        simp only [analyze, hval, Except.ok.injEq] at h
        subst h
        constructor
        · norm_num [emptySentResult]
        · intro _ _ rec hrec
          simp [emptySentResult] at hrec
      | valid ct ws =>
        simp only [analyze, hval, Except.ok.injEq] at h
        subst h
        constructor
        · have hnn : ∀ x ∈ (sentSentences ext ct).map (analyzeSentence ext cfg),
              0 ≤ x.confidence := by
            intro x hx
            rw [List.mem_map] at hx
            obtain ⟨s2, _, rfl⟩ := hx
            rw [analyzeSentence_conf_abs]
            exact abs_nonneg _
          exact calcOverall_conf_bounds _ hnn
        · intro hv hvt rec hrec
          have hrec2 : rec ∈ (sentSentences ext ct).map (analyzeSentence ext cfg) := hrec
          rw [List.mem_map] at hrec2
          obtain ⟨s2, _, rfl⟩ := hrec2
          exact analyzeSentence_conf_bounds ext cfg s2 hv hvt

/-- C7 witness: the insight found in a concrete problem transcript, a
sentence analyzed under zero external scores, and the overall result of a
concrete analyze call all have confidences inside the unit interval. -/
theorem c7_witness :
    (0 ≤ c7insight.confidence ∧ c7insight.confidence ≤ 1) ∧
    (0 ≤ (analyzeSentence zeroExternals defaultAnalyzer "x").confidence ∧
      (analyzeSentence zeroExternals defaultAnalyzer "x").confidence ≤ 1) ∧
    (0 ≤ c7result.confidence ∧ c7result.confidence ≤ 1) := by
  refine ⟨?_, ?_, ?_⟩
  · exact c7_confidence_bounds.1 defaultExtractor "we have a problem with the system."
      .problem c7insight (by decide)
  · exact c7_confidence_bounds.2.1 zeroExternals defaultAnalyzer "x"
      (fun u => by norm_num [zeroExternals]) (fun u => by norm_num [zeroExternals])
  · exact (c7_confidence_bounds.2.2 zeroExternals defaultAnalyzer
      (.vStr "hello there. ok.") c7result (by rfl)).1

/-- C8: in every extraction result, no two insights of the same type have
case-identical text: each per-type detailed list is pairwise distinct
under lower-casing, because a candidate whose lower-cased text equals one
already kept is dropped (exact match, not fuzzy). -/
theorem c8_per_type_dedup (ecfg : ExtractorConfig) (v : PyVal) (rep : InsightReport)
    (h : extract_insights ecfg v = .ok rep) :
    ∀ name lst, (name, lst) ∈ rep.detailed_insights →
      lst.Pairwise fun a b => pyLower a.text ≠ pyLower b.text := by
  rcases hval : validate_transcript v with e | vr
  · simp only [extract_insights, hval] at h
    exact absurd h (by simp)
  · cases vr with
    | invalid err ws =>
      simp only [extract_insights, hval, Except.ok.injEq] at h
      subst h
      intro name lst hmem
      simp [emptyInsightReport] at hmem
    | valid ct ws =>
      simp only [extract_insights, hval, Except.ok.injEq] at h
      subst h
      intro name lst hmem
      have hmem2 : (name, lst) ∈ insightTypesList.map
          fun t => (t.value, (extractByType ecfg ct t).map toDetailed) := hmem
      rw [List.mem_map] at hmem2
      obtain ⟨t, _, heq⟩ := hmem2
      have hlst : lst = (extractByType ecfg ct t).map toDetailed := by
        have h2 := congrArg Prod.snd heq
        simpa using h2.symm
      rw [hlst, List.pairwise_map]
      exact extractByType_pairwise ecfg ct t

/-- C8 witness: the problem list of the report extracted from a concrete
transcript is pairwise distinct under lower-casing. -/
theorem c8_witness :
    ([⟨"problem with the system.", 1/5, "technical", ["problem"], "medium"⟩] :
      List DetailedInsight).Pairwise (fun a b => pyLower a.text ≠ pyLower b.text) :=
  c8_per_type_dedup defaultExtractor (.vStr "we have a problem with the system.")
    c8report (by rfl) "problem"
    [⟨"problem with the system.", 1/5, "technical", ["problem"], "medium"⟩] (by decide)

/-- C9: with the constructor state passed explicitly (nothing in either
class ever assigns an attribute outside the constructor), calling analyze
or extract_insights twice in a row on the same input yields identical
results and leaves the state unchanged: both are deterministic functions
of the state and the input. -/
theorem c9_deterministic (ext : Externals) (acfg : AnalyzerConfig)
    (ecfg : ExtractorConfig) (v : PyVal) :
    (analyzeMethod acfg ext v).2 = acfg ∧
    (analyzeMethod ((analyzeMethod acfg ext v).2) ext v).1 = (analyzeMethod acfg ext v).1 ∧
    (extractMethod ecfg v).2 = ecfg ∧
    (extractMethod ((extractMethod ecfg v).2) v).1 = (extractMethod ecfg v).1 :=
  ⟨rfl, rfl, rfl, rfl⟩

/-- C10 counterexample: a dict whose "text" value is an int is a
non-string, non-None input that the claim says is rejected as invalid with
a type-error message; instead validate_transcript (and with it analyze)
raises an AttributeError, returning no validation outcome at all. -/
theorem c10_counterexample :
    validate_transcript (.vDictWithText (.vOther "int")) = .error .attributeError ∧
    (∀ res, validate_transcript (.vDictWithText (.vOther "int")) ≠ .ok res) ∧
    analyze zeroExternals defaultAnalyzer (.vDictWithText (.vOther "int")) =
      .error .attributeError := by
  refine ⟨rfl, ?_, rfl⟩
  intro res h
  simp [validate_transcript] at h

/-- C10 as amended: a dict carrying a string under its "text" key is
validated exactly as that string would be (and analyze and
extract_insights treat it identically); a dict without a "text" key and
every other non-string, non-None value are rejected as invalid with a
type-error message naming the received type; a dict whose "text" value is
not a string raises an attribute error instead. -/
theorem c10_dict_text_validation :
    (∀ s, validate_transcript (.vDictWithText (.vStr s)) = validate_transcript (.vStr s)) ∧
    validate_transcript .vDictNoText =
      .ok (.invalid "Transcript must be a string, received dict" []) ∧
    (∀ t, validate_transcript (.vOther t) =
      .ok (.invalid ("Transcript must be a string, received " ++ t) [])) ∧
    (∀ v : PyVal, (∀ s, v ≠ .vStr s) →
      validate_transcript (.vDictWithText v) = .error .attributeError) ∧
    (∀ (ext : Externals) (acfg : AnalyzerConfig) (s : String),
      analyze ext acfg (.vDictWithText (.vStr s)) = analyze ext acfg (.vStr s)) ∧
    (∀ (ecfg : ExtractorConfig) (s : String),
      extract_insights ecfg (.vDictWithText (.vStr s)) = extract_insights ecfg (.vStr s)) := by
  refine ⟨fun s => rfl, rfl, fun t => rfl, ?_, fun ext acfg s => rfl, fun ecfg s => rfl⟩
  intro v hv
  cases v with
  | vStr s => exact absurd rfl (hv s)
  | vNone => rfl
  | vDictWithText w => rfl
  | vDictNoText => rfl
  | vOther t => rfl

/-- C10 witness: a dict whose "text" value is itself a dict is not a
string, and validation raises. -/
theorem c10_witness :
    validate_transcript (.vDictWithText .vDictNoText) = .error .attributeError :=
  c10_dict_text_validation.2.2.2.1 .vDictNoText (fun _ h => PyVal.noConfusion h)
